import Mathlib

/-!
Verification of the introspection CLI core against its specification.

The development shallowly embeds the repository's element model, cursor
engine, select-dispatch logic, Mongo URI helpers and the flag credential
resolver, and proves or refutes the frozen claims about them.
-/

set_option maxHeartbeats 1000000

/-! ## Element model (src/components/types.ts)

The TypeScript `Element` union has four variants discriminated by the
`type` field.  Styling props (`BoxProps`) are render-only and never
inspected by the logic under verification, so they are not modelled.
The `value` of a select and the `onSelect` callback are modelled by an
optional string value and a boolean recording whether a callback is
attached (the callback body itself is opaque to the controller). -/

inductive Element where
  | textInput (identifier : String) (label : String)
      (placeholder : Option String) (mask : Option String)
  | checkbox (identifier : String) (label : String)
  | select (label : String) (value : Option String)
      (description : Option String) (hasOnSelect : Bool)
  | separator (label : Option String) (dividerChar : Option String)
deriving DecidableEq

/-- Model of `isElementSeparator` from src/components/helpers.ts: `obj.type === "separator"`. -/
def isElementSeparator : Element → Bool
  | .separator _ _ => true
  | _ => false

/-- Model of `isElementInput`: `obj.type === "text-input"`. -/
def isElementInput : Element → Bool
  | .textInput _ _ _ _ => true
  | _ => false

/-- Model of `isElementSelect`: `obj.type === "select"`. -/
def isElementSelect : Element → Bool
  | .select _ _ _ _ => true
  | _ => false

/-- Model of `isElementCheckbox`: `obj.type === "checkbox"`. -/
def isElementCheckbox : Element → Bool
  | .checkbox _ _ => true
  | _ => false

/-- Test `["separator"].includes(elements[i].type)` at an index: true when index `i`
is in bounds and holds a separator (the source only evaluates it in bounds). -/
def sepAt (elements : List Element) (i : Nat) : Bool :=
  match elements.get? i with
  | some e => isElementSeparator e
  | none => false

/-! ## Cursor engine (src/components/helpers.ts)

```js
export function down(cursor, elements) {
  const length = elements.length;
  while (cursor < length - 1 && ["separator"].includes(elements[cursor + 1].type)) {
    cursor++;
  }
  return cursor < length - 1 ? cursor + 1 : cursor;
}
```

The while loop increments `cursor` while `cursor < length - 1`; the value
`length - 1 - cursor` strictly decreases and is used as the structural
recursion counter `d` (the invariant `d = length - 1 - cursor` makes the
guard `cursor < length - 1` equivalent to `d > 0`). -/

def downLoopAux (elements : List Element) : Nat → Nat → Nat
  | 0, cursor => cursor
  | d + 1, cursor =>
      if sepAt elements (cursor + 1) then downLoopAux elements d (cursor + 1)
      else cursor

/-- Model of `down` from src/components/helpers.ts. -/
def down (cursor : Nat) (elements : List Element) : Nat :=
  let length := elements.length
  let c := downLoopAux elements (length - 1 - cursor) cursor
  if c < length - 1 then c + 1 else c

/-- The while loop of `up`:
```js
while (cursor > 0 && ["separator"].includes(elements[cursor - 1].type)) {
  cursor--;
}
``` -/
def upLoop (elements : List Element) : Nat → Nat
  | 0 => 0
  | c + 1 => if sepAt elements c then upLoop elements c else c + 1

/-- Model of `up` from src/components/helpers.ts. -/
def up (cursor : Nat) (elements : List Element) : Nat :=
  let c := upLoop elements cursor
  if c > 0 then c - 1 else c

/-- A sequence of cursor moves, for stating properties of repeated
`down`/`up` application. -/
inductive Move where
  | down
  | up
deriving DecidableEq

/-- Apply a sequence of moves to a cursor over a fixed element list. -/
def applyMoves (elements : List Element) : List Move → Nat → Nat
  | [], c => c
  | m :: ms, c =>
      applyMoves elements ms
        (match m with
         | .down => down c elements
         | .up => up c elements)

/-! ### Cursor engine lemmas -/

theorem downLoopAux_le (elements : List Element) :
    ∀ d c, downLoopAux elements d c ≤ c + d := by
  intro d
  induction d with
  | zero => intro c; simp [downLoopAux]
  | succ d ih =>
      intro c
      simp only [downLoopAux]
      split
      · exact le_trans (ih (c + 1)) (by omega)
      · omega

theorem downLoopAux_exit (elements : List Element) :
    ∀ d c, sepAt elements (downLoopAux elements d c + 1) = false ∨
      downLoopAux elements d c = c + d := by
  intro d
  induction d with
  | zero => intro c; right; simp [downLoopAux]
  | succ d ih =>
      intro c
      simp only [downLoopAux]
      split
      · rcases ih (c + 1) with h | h
        · exact Or.inl h
        · right; omega
      · rename_i h
        exact Or.inl (by simpa using h)

theorem down_le (elements : List Element) (c : Nat)
    (hc : c ≤ elements.length - 1) :
    down c elements ≤ elements.length - 1 := by
  have h := downLoopAux_le elements (elements.length - 1 - c) c
  simp only [down]
  split <;> omega

theorem up_le_self (elements : List Element) (c : Nat) :
    up c elements ≤ c := by
  have h : ∀ k, upLoop elements k ≤ k := by
    intro k
    induction k with
    | zero => simp [upLoop]
    | succ k ih => simp only [upLoop]; split <;> omega
  simp only [up]
  have := h c
  split <;> omega

theorem down_not_sep (elements : List Element) (c : Nat)
    (hc : c ≤ elements.length - 1)
    (hlast : sepAt elements (elements.length - 1) = false) :
    sepAt elements (down c elements) = false := by
  have hle := downLoopAux_le elements (elements.length - 1 - c) c
  have hcd : c + (elements.length - 1 - c) = elements.length - 1 := by omega
  rcases downLoopAux_exit elements (elements.length - 1 - c) c with h | h
  · simp only [down]
    split
    · exact h
    · rename_i hlt
      have : downLoopAux elements (elements.length - 1 - c) c =
          elements.length - 1 := by omega
      rw [this]; exact hlast
  · simp only [down]
    rw [h, hcd]
    split
    · omega
    · exact hlast

theorem upLoop_exit (elements : List Element) (c : Nat) :
    upLoop elements c = 0 ∨
      (0 < upLoop elements c ∧
        sepAt elements (upLoop elements c - 1) = false) := by
  induction c with
  | zero => left; simp [upLoop]
  | succ c ih =>
      simp only [upLoop]
      split
      · exact ih
      · rename_i h
        right
        refine ⟨Nat.succ_pos c, ?_⟩
        simpa using h

theorem up_not_sep (elements : List Element) (c : Nat)
    (hfirst : sepAt elements 0 = false) :
    sepAt elements (up c elements) = false := by
  rcases upLoop_exit elements c with h | ⟨h1, h2⟩
  · simp only [up, h]
    simpa using hfirst
  · simp only [up]
    split
    · exact h2
    · omega

/-- Claim C1 counterexample helper: a select followed by a separator. -/
def c1Elems : List Element :=
  [Element.select "Test" (some "test") none false,
   Element.separator none none]

/-- Claim C1: the claim as stated is false. On the two-element list
`[Select, Separator]` with the cursor at 0 (a valid non-Separator
position), a single `down` yields cursor 1, which rests on a Separator. -/
theorem c1_counterexample :
    down 0 c1Elems = 1 ∧ sepAt c1Elems 1 = true := by decide

/-- Claim C1 (amended): if additionally the first and last elements of the
list are not Separators, then repeated application of `down`/`up` from any
cursor in `[0, length-1]` keeps the cursor in `[0, length-1]` and, after at
least one move, never rests on a Separator. -/
theorem c1_claim (elements : List Element) (ms : List Move) (c : Nat)
    (_hne : elements ≠ [])
    (hfirst : sepAt elements 0 = false)
    (hlast : sepAt elements (elements.length - 1) = false)
    (hc : c ≤ elements.length - 1) :
    applyMoves elements ms c ≤ elements.length - 1 ∧
      (ms ≠ [] → sepAt elements (applyMoves elements ms c) = false) := by
  induction ms generalizing c with
  | nil =>
      exact ⟨hc, by simp⟩
  | cons m ms ih =>
      simp only [applyMoves]
      cases m with
      | down =>
          have hstep := down_le elements c hc
          have hstepSep := down_not_sep elements c hc hlast
          cases ms with
          | nil => exact ⟨hstep, fun _ => by simpa [applyMoves] using hstepSep⟩
          | cons m2 ms2 =>
              have h := ih _ hstep
              exact ⟨h.1, fun _ => h.2 (by simp)⟩
      | up =>
          have hstep := le_trans (up_le_self elements c) hc
          have hstepSep := up_not_sep elements c hfirst
          cases ms with
          | nil => exact ⟨hstep, fun _ => by simpa [applyMoves] using hstepSep⟩
          | cons m2 ms2 =>
              have h := ih _ hstep
              exact ⟨h.1, fun _ => h.2 (by simp)⟩

/-- Claim C1 witness: on `[Select, Separator, TextInput]` (non-Separator
endpoints) the move sequence down-then-up from cursor 0 lands in range and
off Separators. -/
theorem c1_witness :
    applyMoves
        [Element.select "Test" (some "test") none false,
         Element.separator none none,
         Element.textInput "host" "Host:" none none]
        [Move.down, Move.up] 0 ≤ 2 ∧
      sepAt
        [Element.select "Test" (some "test") none false,
         Element.separator none none,
         Element.textInput "host" "Host:" none none]
        (applyMoves
          [Element.select "Test" (some "test") none false,
           Element.separator none none,
           Element.textInput "host" "Host:" none none]
          [Move.down, Move.up] 0) = false := by
  have h := c1_claim
    [Element.select "Test" (some "test") none false,
     Element.separator none none,
     Element.textInput "host" "Host:" none none]
    [Move.down, Move.up] 0 (by decide) (by decide) (by decide) (by decide)
  exact ⟨h.1, h.2 (by decide)⟩

/-- Claim C7: the claim as stated is false. On a list of three Separators,
`down` from cursor 0 slides to index 2 (not back to the initial cursor),
and `up` from cursor 2 slides to index 0. -/
theorem c7_counterexample :
    down 0 [Element.separator none none, Element.separator none none,
            Element.separator none none] = 2 ∧
    up 2 [Element.separator none none, Element.separator none none,
          Element.separator none none] = 0 := by decide

theorem downLoopAux_all_sep (elements : List Element) :
    ∀ d c, c + d = elements.length - 1 → elements.length - 1 < elements.length →
    (∀ j, j < elements.length → c < j → sepAt elements j = true) →
    downLoopAux elements d c = c + d := by
  intro d
  induction d with
  | zero => intro c _ _ _; simp [downLoopAux]
  | succ d ih =>
      intro c hcd hlen hsep
      have hs : sepAt elements (c + 1) = true :=
        hsep (c + 1) (by omega) (by omega)
      simp only [downLoopAux, hs, if_pos]
      have := ih (c + 1) (by omega) hlen (fun j hj hcj => hsep j hj (by omega))
      omega

/-- Claim C7 (amended): when no non-Separator element exists beyond the
cursor in the direction of movement the cursor is NOT left unchanged;
instead it slides through the Separators to the boundary: `down` yields
`length - 1` whenever `cursor < length - 1` (and the cursor itself
otherwise), and `up` yields `0`. No exception is raised (the functions are
total). In particular on an all-Separator list `down` parks the cursor at
the last index and `up` parks it at index 0. -/
theorem c7_claim (elements : List Element) (c : Nat) :
    ((∀ j, j < elements.length → c < j → sepAt elements j = true) →
      down c elements = if c < elements.length - 1 then elements.length - 1 else c) ∧
    ((∀ j, j < c → sepAt elements j = true) → up c elements = 0) := by
  constructor
  · intro hsep
    by_cases hc : c < elements.length - 1
    · have hlen : elements.length - 1 < elements.length := by omega
      have h := downLoopAux_all_sep elements (elements.length - 1 - c) c
        (by omega) hlen hsep
      simp only [down, h]
      have : c + (elements.length - 1 - c) = elements.length - 1 := by omega
      rw [this]
      simp [hc]
    · have hd : elements.length - 1 - c = 0 := by omega
      simp only [down, hd, downLoopAux]
      simp [hc]
  · intro hsep
    have h : ∀ k, (∀ j, j < k → sepAt elements j = true) →
        upLoop elements k = 0 := by
      intro k
      induction k with
      | zero => intro _; simp [upLoop]
      | succ k ih =>
          intro hs
          have : sepAt elements k = true := hs k (by omega)
          simp only [upLoop, this, if_pos]
          exact ih (fun j hj => hs j (by omega))
    have h0 := h c hsep
    simp [up, h0]

/-- Claim C7 witness: on `[Select, Separator, Separator]` everything past
cursor 0 is a Separator and `down` slides to the last index; on
`[Separator, Separator, Select]` everything before cursor 2 is a Separator
and `up` slides to index 0. -/
theorem c7_witness :
    down 0 [Element.select "Test" none none false,
            Element.separator none none, Element.separator none none] = 2 ∧
    up 2 [Element.separator none none, Element.separator none none,
          Element.select "Test" none none false] = 0 := by
  constructor
  · have h := (c7_claim
      [Element.select "Test" none none false,
       Element.separator none none, Element.separator none none] 0).1
      (by decide)
    simpa using h
  · exact (c7_claim
      [Element.separator none none, Element.separator none none,
       Element.select "Test" none none false] 2).2 (by decide)

/-! ## Spinner tracker and select dispatch (src/components/BoxPrompt.tsx)

`SpinnerState` is the union `"running" | "succeeded" | "failed"` from
src/components/types.ts; the per-index record `spinnersByCursor` maps an
element index to `SpinnerState | undefined`, modelled as
`Option SpinnerState`. -/

inductive SpinnerState where
  | running
  | succeeded
  | failed
deriving DecidableEq

/-- The two things the `onSelect` handler in `Prompt` can do with a key
dispatch on a Select element: invoke the element's own `onSelect` action,
or call `submitPrompt`. -/
inductive SelectDispatch where
  | invokeAction
  | submitPrompt
deriving DecidableEq

/-- The select handler of `Prompt` (src/components/BoxPrompt.tsx):

```js
onSelect={async value => {
  if (e.onSelect && spinnersByCursor[elemIndex] !== "running") {
    return e.onSelect({ ... });
  }
  submitPrompt(value);
}}
```

`hasOnSelect` records whether `e.onSelect` is attached; `spinner` is
`spinnersByCursor[elemIndex]`. -/
def onSelectDispatch (hasOnSelect : Bool) (spinner : Option SpinnerState) :
    SelectDispatch :=
  if hasOnSelect = true ∧ spinner ≠ some SpinnerState.running then
    SelectDispatch.invokeAction
  else
    SelectDispatch.submitPrompt

/-- Claim C3: for every Select element that carries an `onSelect` action,
selecting it while its spinner state is `running` never invokes the action
again: the dispatch is not `invokeAction` (the handler falls through to
`submitPrompt` instead). -/
theorem c3_claim (hasOnSelect : Bool) :
    onSelectDispatch hasOnSelect (some SpinnerState.running) ≠
      SelectDispatch.invokeAction := by
  cases hasOnSelect <;> decide

/-! ## Mongo URI helpers (src/introspect/util.ts)

The source uses the WHATWG `URL` class from the Node `url` module (an
external collaborator).  A parsed URL is modelled by its components; the
parser below handles URLs of the shape `scheme://host[/path][?search]`,
splitting at the first `://`, ending the host at the first `/` or `?`, and
ending the pathname at the first `?` — which is how `new URL` decomposes
the Mongo connection strings this code receives.  `new URL` throwing a
`TypeError` on garbage input is modelled by the parser returning `none`. -/

structure URLRec where
  scheme : String
  host : String
  pathname : String
  search : String
deriving DecidableEq

/-- Split a character list at the first occurrence of `://`, returning the
part before (the scheme) and the part after. -/
def splitScheme : List Char → Option (List Char × List Char)
  | [] => none
  | ':' :: '/' :: '/' :: rest => some ([], rest)
  | c :: rest =>
      match splitScheme rest with
      | some (a, b) => some (c :: a, b)
      | none => none

/-- Split a character list at the first character satisfying `p` (the
separator character stays in the second component). -/
def spanUntil (p : Char → Bool) : List Char → List Char × List Char
  | [] => ([], [])
  | c :: rest =>
      if p c then ([], c :: rest)
      else
        match spanUntil p rest with
        | (a, b) => (c :: a, b)

/-- Parse a URL string into its components (model of `new URL`). -/
def parseURL (s : String) : Option URLRec :=
  match splitScheme s.data with
  | none => none
  | some (scheme, rest) =>
      if scheme = [] then none
      else
        match spanUntil (fun c => c = '/' ∨ c = '?') rest with
        | (host, tail) =>
            if host = [] then none
            else
              match spanUntil (fun c => c = '?') tail with
              | (pathname, search) =>
                  some ⟨String.mk scheme, String.mk host,
                        String.mk pathname, String.mk search⟩

/-- Serialize a URL back to a string (model of `url.toString()`). -/
def serializeURL (u : URLRec) : String :=
  u.scheme ++ "://" ++ u.host ++ u.pathname ++ u.search

/-- The WHATWG `pathname` setter: the assigned path is reparsed and, for a
URL with a host, serialized with a leading `/` (so `url.pathname = "admin"`
yields pathname `/admin`). -/
def setPathname (u : URLRec) (p : String) : URLRec :=
  { u with pathname :=
      match p.data with
      | '/' :: _ => p
      | _ => "/" ++ p }

/-- The error kinds raised by flag resolution and the Mongo helpers.
`invalidURL` models `new URL` throwing on an unparsable string;
`missingDatabase` models the "Please provide a Mongo database" error;
`mutualExclusion` and `incompleteGroup` model the two validation errors of
`getCredentialsByFlags` (the latter carries the flag-name list interpolated
into the message by `handleMissingArgs`). -/
inductive ResolveError where
  | mutualExclusion
  | incompleteGroup (groupName : String) (missing : List String)
  | missingDatabase
  | invalidURL
deriving DecidableEq

/-- JavaScript falsiness of an optional string (`!database`): `undefined`
and the empty string are both falsy. -/
def jsFalsyStr : Option String → Bool
  | none => true
  | some s => s == ""

/-- Model of `url.pathname.slice(1)`: drop the first character. -/
def sliceFrom1 (s : String) : String :=
  String.mk (s.data.drop 1)

/-- Model of `sanitizeMongoUri` from src/introspect/util.ts:

```js
export function sanitizeMongoUri(mongoUri: string) {
  const url = new URL(mongoUri);
  if (url.pathname === "/" || url.pathname.length === 0) {
    url.pathname = "admin";
  }
  return url.toString();
}
``` -/
def sanitizeMongoUri (mongoUri : String) : Except ResolveError String :=
  match parseURL mongoUri with
  | none => Except.error ResolveError.invalidURL
  | some url =>
      let url :=
        if url.pathname = "/" ∨ url.pathname.length = 0 then
          setPathname url "admin"
        else url
      Except.ok (serializeURL url)

/-- Model of `populateMongoDatabase` from src/introspect/util.ts:

```js
export function populateMongoDatabase({ uri, database }) {
  const url = new URL(uri);
  if ((url.pathname === "/" || url.pathname.length === 0) && !database) {
    throw new Error("Please provide a Mongo database ...");
  }
  if (!database) {
    database = url.pathname.slice(1);
  }
  return { uri, database };
}
``` -/
def populateMongoDatabase (uri : String) (database : Option String) :
    Except ResolveError (String × String) :=
  match parseURL uri with
  | none => Except.error ResolveError.invalidURL
  | some url =>
      if (url.pathname = "/" ∨ url.pathname.length = 0) ∧
          jsFalsyStr database = true then
        Except.error ResolveError.missingDatabase
      else
        let db :=
          if jsFalsyStr database = true then sliceFrom1 url.pathname
          else database.getD ""
        Except.ok (uri, db)

/-! ### Mongo URI claims -/

/-- Claim C8: for every URI accepted by the URL parser, `sanitizeMongoUri`
rewrites an empty-or-root path to `/admin` and leaves any other path
unchanged, serializing the rest of the URI as is. -/
theorem c8_claim (s : String) (u : URLRec) (h : parseURL s = some u) :
    ((u.pathname = "/" ∨ u.pathname.length = 0) →
      sanitizeMongoUri s =
        Except.ok (serializeURL { u with pathname := "/admin" })) ∧
    (¬(u.pathname = "/" ∨ u.pathname.length = 0) →
      sanitizeMongoUri s = Except.ok (serializeURL u)) := by
  constructor
  · intro hroot
    simp only [sanitizeMongoUri, h, if_pos hroot]
    rfl
  · intro hpath
    simp only [sanitizeMongoUri, h, if_neg hpath]

/-- Claim C8 witness: `sanitizeMongoUri "mongodb://host"` yields the URI
with path `/admin`, and `sanitizeMongoUri "mongodb://host/mydb"` keeps the
path `/mydb`. -/
theorem c8_witness :
    sanitizeMongoUri "mongodb://host" =
      Except.ok (serializeURL ⟨"mongodb", "host", "/admin", ""⟩) ∧
    sanitizeMongoUri "mongodb://host/mydb" =
      Except.ok (serializeURL ⟨"mongodb", "host", "/mydb", ""⟩) := by
  constructor
  · exact (c8_claim "mongodb://host" ⟨"mongodb", "host", "", ""⟩
      (by decide)).1 (by decide)
  · exact (c8_claim "mongodb://host/mydb" ⟨"mongodb", "host", "/mydb", ""⟩
      (by decide)).2 (by decide)

/-- Claim C6: the claim as stated is false. `populateMongoDatabase` treats
an explicitly supplied empty-string database like an absent one (JavaScript
falsiness of `!database`): on `uri = "mongodb://host/mydb"` with the
explicit argument `""`, the claim predicts the explicit value `""` is
returned, but the code derives `"mydb"` from the path instead. -/
theorem c6_counterexample :
    populateMongoDatabase "mongodb://host/mydb" (some "") =
      Except.ok ("mongodb://host/mydb", "mydb") ∧ "mydb" ≠ "" := by
  constructor
  · rfl
  · decide

/-- Claim C6 (amended): for every URI accepted by the URL parser,
`populateMongoDatabase` raises the MissingDatabase error exactly when the
URI path is empty or root and the database argument is absent **or the
empty string** (JavaScript falsiness); a non-empty explicit database
argument takes precedence and is returned unchanged; otherwise the
database is the URI path with its leading slash removed. -/
theorem c6_claim (uri : String) (u : URLRec) (database : Option String)
    (h : parseURL uri = some u) :
    (populateMongoDatabase uri database = Except.error ResolveError.missingDatabase ↔
      ((u.pathname = "/" ∨ u.pathname.length = 0) ∧
        (database = none ∨ database = some ""))) ∧
    (∀ d, database = some d → d ≠ "" →
      populateMongoDatabase uri database = Except.ok (uri, d)) ∧
    ((database = none ∨ database = some "") →
      ¬(u.pathname = "/" ∨ u.pathname.length = 0) →
      populateMongoDatabase uri database = Except.ok (uri, sliceFrom1 u.pathname)) := by
  have hfalsy : jsFalsyStr database = true ↔
      (database = none ∨ database = some "") := by
    cases database with
    | none => simp [jsFalsyStr]
    | some s =>
        simp only [jsFalsyStr, Option.some.injEq, reduceCtorEq, false_or]
        exact ⟨fun hs => eq_of_beq hs, fun hs => by simp [hs]⟩
  refine ⟨?_, ?_, ?_⟩
  · constructor
    · intro herr
      simp only [populateMongoDatabase, h] at herr
      split at herr
      · rename_i hcond
        exact ⟨hcond.1, hfalsy.mp hcond.2⟩
      · simp at herr
    · rintro ⟨hroot, hdb⟩
      simp only [populateMongoDatabase, h]
      rw [if_pos ⟨hroot, hfalsy.mpr hdb⟩]
  · intro d hd hdne
    have hnf : jsFalsyStr database = false := by
      subst hd
      simp only [jsFalsyStr]
      exact beq_eq_false_iff_ne.mpr hdne
    simp only [populateMongoDatabase, h, hnf]
    simp [hd]
  · intro hdb hpath
    have hf : jsFalsyStr database = true := hfalsy.mpr hdb
    simp only [populateMongoDatabase, h, hf]
    simp [hpath]

/-- Claim C6 witness: `populateMongoDatabase "mongodb://host/" none` fails
with MissingDatabase, `"mongodb://host/mydb"` with no explicit database
yields `"mydb"`, and the explicit non-empty argument `"explicit"` wins over
a root path. -/
theorem c6_witness :
    populateMongoDatabase "mongodb://host/" none =
      Except.error ResolveError.missingDatabase ∧
    populateMongoDatabase "mongodb://host/mydb" none =
      Except.ok ("mongodb://host/mydb", "mydb") ∧
    populateMongoDatabase "mongodb://host/" (some "explicit") =
      Except.ok ("mongodb://host/", "explicit") := by
  refine ⟨?_, ?_, ?_⟩
  · exact (c6_claim "mongodb://host/" ⟨"mongodb", "host", "/", ""⟩ none
      (by decide)).1.mpr (by decide)
  · have h := (c6_claim "mongodb://host/mydb" ⟨"mongodb", "host", "/mydb", ""⟩
      none (by decide)).2.2 (Or.inl rfl) (by decide)
    simpa using h
  · exact (c6_claim "mongodb://host/" ⟨"mongodb", "host", "/", ""⟩
      (some "explicit") (by decide)).2.1 "explicit" rfl (by decide)

/-- Claim C10: whenever `populateMongoDatabase` succeeds, the `uri` field
of its result is exactly the input URI string — the function computes only
the database and never rewrites the URI. -/
theorem c10_claim (uri : String) (database : Option String)
    (r : String × String)
    (h : populateMongoDatabase uri database = Except.ok r) :
    r.1 = uri := by
  simp only [populateMongoDatabase] at h
  split at h
  · simp at h
  · split at h
    · simp at h
    · simp only [Except.ok.injEq] at h
      rw [← h]

/-- Claim C10 witness: on a concrete sanitizable input the returned `uri`
is the input string. -/
theorem c10_witness :
    (("mongodb://host/mydb", "mydb") : String × String).1 =
      "mongodb://host/mydb" :=
  c10_claim "mongodb://host/mydb" none ("mongodb://host/mydb", "mydb")
    (by rfl)

/-! ## Flag credential resolver (src/index.ts)

`getCredentialsByFlags` receives the result of the `arg` CLI parser: an
object whose keys are exactly the flags supplied on the command line (plus
the positional bucket `_`).  Each field below is `none` when the flag was
absent and `some v` when supplied — note that a flag given an empty string
is *present* with value `""`.  `Object.keys(args)` is modelled by
`flagsKeys`; only membership and counts of those keys are ever used, so
the modelled key order (declaration order) is irrelevant to behaviour. -/

structure Flags where
  interactive : Option Bool := none
  envFile : Option String := none
  project : Option String := none
  help : Option Bool := none
  pgHost : Option String := none
  pgPort : Option String := none
  pgUser : Option String := none
  pgPassword : Option String := none
  pgDb : Option String := none
  pgSsl : Option Bool := none
  pgSchema : Option String := none
  mysqlHost : Option String := none
  mysqlPort : Option String := none
  mysqlUser : Option String := none
  mysqlPassword : Option String := none
  mysqlDb : Option String := none
  mongoUri : Option String := none
  mongoDb : Option String := none
  sdl : Option Bool := none
deriving DecidableEq

/-- The key list contributed by one flag: present flags contribute their
key, absent ones contribute nothing. -/
def keyIf (b : Bool) (key : String) : List String :=
  if b then [key] else []

/-- Model of `Object.keys(args)` for the `arg` parse result. -/
def flagsKeys (args : Flags) : List String :=
  ["_"]
  ++ keyIf args.interactive.isSome "--interactive"
  ++ keyIf args.envFile.isSome "--env-file"
  ++ keyIf args.project.isSome "--project"
  ++ keyIf args.help.isSome "--help"
  ++ keyIf args.pgHost.isSome "--pg-host"
  ++ keyIf args.pgPort.isSome "--pg-port"
  ++ keyIf args.pgUser.isSome "--pg-user"
  ++ keyIf args.pgPassword.isSome "--pg-password"
  ++ keyIf args.pgDb.isSome "--pg-db"
  ++ keyIf args.pgSsl.isSome "--pg-ssl"
  ++ keyIf args.pgSchema.isSome "--pg-schema"
  ++ keyIf args.mysqlHost.isSome "--mysql-host"
  ++ keyIf args.mysqlPort.isSome "--mysql-port"
  ++ keyIf args.mysqlUser.isSome "--mysql-user"
  ++ keyIf args.mysqlPassword.isSome "--mysql-password"
  ++ keyIf args.mysqlDb.isSome "--mysql-db"
  ++ keyIf args.mongoUri.isSome "--mongo-uri"
  ++ keyIf args.mongoDb.isSome "--mongo-db"
  ++ keyIf args.sdl.isSome "--sdl"

/-- List `requiredPostgresFlags` from `getCredentialsByFlags`. -/
def requiredPostgresFlags : List String :=
  ["--pg-host", "--pg-user", "--pg-password", "--pg-db"]

/-- List `requiredMysqlFlags` from `getCredentialsByFlags`. -/
def requiredMysqlFlags : List String :=
  ["--mysql-host", "--mysql-user", "--mysql-password"]

/-- Model of `handleMissingArgs` from src/index.ts: computes the required flags not
among the provided ones (in required order) and throws the
incomplete-group error naming them:

```js
const missingArgs = requiredArgs.filter(
  arg => !providedArgs.some(provided => arg === provided),
);
throw new Error(`If you provide one of the ${prefix}- arguments, ...
  The arguments ${missingArgs.join(", ")} are missing.`);
``` -/
def handleMissingArgs (requiredArgs providedArgs : List String)
    (groupName : String) : ResolveError :=
  ResolveError.incompleteGroup groupName
    (requiredArgs.filter (fun a => !(providedArgs.contains a)))

/-- Enum `DatabaseType` from the external prisma-datamodel package (the three
members this repository uses). -/
inductive DatabaseType where
  | postgres
  | mysql
  | mongo
deriving DecidableEq

/-- The `DatabaseCredentials` shape (src/types.ts): a bag of optional
connection fields plus the family tag.  JavaScript `number` for `port` is
modelled as `Option Int`, with `none` standing for the absence of a
numeric value (both `undefined` and the `NaN` produced by `parseInt` on a
missing or non-numeric string). -/
structure DatabaseCredentials where
  type : DatabaseType
  host : Option String := none
  port : Option Int := none
  user : Option String := none
  password : Option String := none
  database : Option String := none
  schema : Option String := none
  uri : Option String := none
deriving DecidableEq

/-- Leading decimal digits of a character list. -/
def leadingDigits : List Char → List Char
  | c :: cs => if c.isDigit then c :: leadingDigits cs else []
  | [] => []

/-- Numeric value of a digit list. -/
def digitsVal (cs : List Char) : Nat :=
  cs.foldl (fun a c => a * 10 + (c.toNat - 48)) 0

/-- Skip leading whitespace. -/
def skipWhitespace : List Char → List Char
  | c :: cs => if c.isWhitespace then skipWhitespace cs else c :: cs
  | [] => []

/-- JavaScript `parseInt(s, 10)` on a string: skip whitespace, optional
sign, then the longest digit prefix; `NaN` (no digits) is `none`. -/
def parseIntStr (s : String) : Option Int :=
  match skipWhitespace s.data with
  | '-' :: rest =>
      match leadingDigits rest with
      | [] => none
      | ds => some (-(digitsVal ds : Int))
  | '+' :: rest =>
      match leadingDigits rest with
      | [] => none
      | ds => some (digitsVal ds : Int)
  | cs =>
      match leadingDigits cs with
      | [] => none
      | ds => some (digitsVal ds : Int)

/-- Model of `parseInt(args["--x-port"]!, 10)`: on `undefined` (absent flag)
`parseInt` returns `NaN`, modelled as `none`. -/
def parseIntJS : Option String → Option Int
  | none => none
  | some s => parseIntStr s

/-- JavaScript truthiness of an optional string (`if (args["--mongo-uri"])`):
`undefined` and `""` are falsy. -/
def jsTruthyStr : Option String → Bool
  | none => false
  | some s => !(s == "")

/-- Model of `getCredentialsByFlags` from src/index.ts.  `throw` is modelled as
`Except.error`, `return null` as `Except.ok none`.  The sequential
`if { throw/return }` blocks of the source are an if-chain because every
taken branch leaves the function. -/
def getCredentialsByFlags (args : Flags) :
    Except ResolveError (Option DatabaseCredentials) :=
  let flagsKeysList := flagsKeys args
  let mysqlFlags := flagsKeysList.filter (fun f => requiredMysqlFlags.contains f)
  let postgresFlags := flagsKeysList.filter (fun f => requiredPostgresFlags.contains f)
  if mysqlFlags.length > 0 ∧ postgresFlags.length > 0 then
    Except.error ResolveError.mutualExclusion
  else if mysqlFlags.length > 0 ∧ mysqlFlags.length < requiredMysqlFlags.length then
    Except.error (handleMissingArgs requiredMysqlFlags mysqlFlags "mysql")
  else if postgresFlags.length > 0 ∧ postgresFlags.length < requiredPostgresFlags.length then
    Except.error (handleMissingArgs requiredPostgresFlags postgresFlags "pg")
  else if mysqlFlags.length ≥ requiredMysqlFlags.length then
    Except.ok (some
      { type := DatabaseType.mysql,
        host := args.mysqlHost,
        port := parseIntJS args.mysqlPort,
        user := args.mysqlUser,
        password := args.mysqlPassword,
        schema := args.mysqlDb })
  else if postgresFlags.length ≥ requiredPostgresFlags.length then
    Except.ok (some
      { type := DatabaseType.postgres,
        host := args.pgHost,
        user := args.pgUser,
        password := args.pgPassword,
        database := args.pgDb,
        port := parseIntJS args.pgPort,
        schema := args.pgSchema })
  else if jsTruthyStr args.mongoUri = true then
    match populateMongoDatabase (args.mongoUri.getD "") args.mongoDb with
    | Except.error e => Except.error e
    | Except.ok credentials =>
        match sanitizeMongoUri credentials.1 with
        | Except.error e => Except.error e
        | Except.ok sanitized =>
            Except.ok (some
              { type := DatabaseType.mongo,
                uri := some sanitized,
                schema := some credentials.2 })
  else
    Except.ok none

/-! ### Resolver lemmas -/

theorem filter_keyIf (p : String → Bool) (b : Bool) (k : String) :
    List.filter p (keyIf b k) = if b && p k then [k] else [] := by
  cases b <;> cases hpk : p k <;> simp [keyIf, List.filter, hpk]

theorem keyIf_length (b : Bool) (k : String) :
    (keyIf b k).length = if b then 1 else 0 := by
  cases b <;> simp [keyIf]

/-- The MySQL presence filter keeps exactly the present required MySQL
flags, in required order. -/
theorem mysqlFlags_eq (args : Flags) :
    (flagsKeys args).filter (fun f => requiredMysqlFlags.contains f) =
      keyIf args.mysqlHost.isSome "--mysql-host" ++
      keyIf args.mysqlUser.isSome "--mysql-user" ++
      keyIf args.mysqlPassword.isSome "--mysql-password" := by
  simp only [flagsKeys, List.filter_append, filter_keyIf]
  simp [keyIf, List.filter, requiredMysqlFlags, List.contains]

/-- The Postgres presence filter keeps exactly the present required
Postgres flags, in required order. -/
theorem postgresFlags_eq (args : Flags) :
    (flagsKeys args).filter (fun f => requiredPostgresFlags.contains f) =
      keyIf args.pgHost.isSome "--pg-host" ++
      keyIf args.pgUser.isSome "--pg-user" ++
      keyIf args.pgPassword.isSome "--pg-password" ++
      keyIf args.pgDb.isSome "--pg-db" := by
  simp only [flagsKeys, List.filter_append, filter_keyIf]
  simp [keyIf, List.filter, requiredPostgresFlags, List.contains]

/-- If at least one required Postgres flag and at least one required MySQL
flag are present, resolution fails with the mutual-exclusion error. -/
theorem resolver_mutual (args : Flags)
    (hpg : args.pgHost.isSome ∨ args.pgUser.isSome ∨
      args.pgPassword.isSome ∨ args.pgDb.isSome)
    (hmy : args.mysqlHost.isSome ∨ args.mysqlUser.isSome ∨
      args.mysqlPassword.isSome) :
    getCredentialsByFlags args = Except.error ResolveError.mutualExclusion := by
  have hm : 0 < (keyIf args.mysqlHost.isSome "--mysql-host" ++
      keyIf args.mysqlUser.isSome "--mysql-user" ++
      keyIf args.mysqlPassword.isSome "--mysql-password").length := by
    rcases hmy with h | h | h <;>
      simp only [List.length_append, keyIf_length, h, reduceIte] <;> omega
  have hp : 0 < (keyIf args.pgHost.isSome "--pg-host" ++
      keyIf args.pgUser.isSome "--pg-user" ++
      keyIf args.pgPassword.isSome "--pg-password" ++
      keyIf args.pgDb.isSome "--pg-db").length := by
    rcases hpg with h | h | h | h <;>
      simp only [List.length_append, keyIf_length, h, reduceIte] <;> omega
  simp only [getCredentialsByFlags, mysqlFlags_eq, postgresFlags_eq]
  rw [if_pos ⟨hm, hp⟩]

/-- With the full Postgres group present and no required MySQL flag,
resolution succeeds with the Postgres descriptor built from the bag. -/
theorem resolver_pg_full (args : Flags)
    (hh : args.pgHost.isSome) (hu : args.pgUser.isSome)
    (hp : args.pgPassword.isSome) (hd : args.pgDb.isSome)
    (hm1 : args.mysqlHost = none) (hm2 : args.mysqlUser = none)
    (hm3 : args.mysqlPassword = none) :
    getCredentialsByFlags args = Except.ok (some
      { type := DatabaseType.postgres,
        host := args.pgHost,
        user := args.pgUser,
        password := args.pgPassword,
        database := args.pgDb,
        port := parseIntJS args.pgPort,
        schema := args.pgSchema }) := by
  simp only [getCredentialsByFlags, mysqlFlags_eq, postgresFlags_eq]
  simp [keyIf, hm1, hm2, hm3, hh, hu, hp, hd, requiredMysqlFlags,
    requiredPostgresFlags]

/-- With the full MySQL group present and no required Postgres flag,
resolution succeeds with the MySQL descriptor built from the bag. -/
theorem resolver_mysql_full (args : Flags)
    (hh : args.mysqlHost.isSome) (hu : args.mysqlUser.isSome)
    (hp : args.mysqlPassword.isSome)
    (hp1 : args.pgHost = none) (hp2 : args.pgUser = none)
    (hp3 : args.pgPassword = none) (hp4 : args.pgDb = none) :
    getCredentialsByFlags args = Except.ok (some
      { type := DatabaseType.mysql,
        host := args.mysqlHost,
        port := parseIntJS args.mysqlPort,
        user := args.mysqlUser,
        password := args.mysqlPassword,
        schema := args.mysqlDb }) := by
  simp only [getCredentialsByFlags, mysqlFlags_eq, postgresFlags_eq]
  simp [keyIf, hp1, hp2, hp3, hp4, hh, hu, hp, requiredMysqlFlags,
    requiredPostgresFlags]

/-- With the Postgres group partially (not fully) present and no required
MySQL flag, resolution fails with the incomplete-group error naming the
absent required Postgres flags in required order. -/
theorem resolver_pg_incomplete (args : Flags)
    (hm1 : args.mysqlHost = none) (hm2 : args.mysqlUser = none)
    (hm3 : args.mysqlPassword = none)
    (hsome : args.pgHost.isSome ∨ args.pgUser.isSome ∨
      args.pgPassword.isSome ∨ args.pgDb.isSome)
    (hnotall : ¬(args.pgHost.isSome ∧ args.pgUser.isSome ∧
      args.pgPassword.isSome ∧ args.pgDb.isSome)) :
    getCredentialsByFlags args = Except.error (ResolveError.incompleteGroup "pg"
      (keyIf (!args.pgHost.isSome) "--pg-host" ++
       keyIf (!args.pgUser.isSome) "--pg-user" ++
       keyIf (!args.pgPassword.isSome) "--pg-password" ++
       keyIf (!args.pgDb.isSome) "--pg-db")) := by
  cases hb1 : args.pgHost.isSome <;> cases hb2 : args.pgUser.isSome <;>
    cases hb3 : args.pgPassword.isSome <;> cases hb4 : args.pgDb.isSome
  · rcases hsome with h | h | h | h <;> simp_all
  rotate_right 1
  · exact absurd (And.intro hb1 (And.intro hb2 (And.intro hb3 hb4))) hnotall
  all_goals
    simp only [getCredentialsByFlags, mysqlFlags_eq, postgresFlags_eq]
  all_goals
    simp [keyIf, hm1, hm2, hm3, hb1, hb2, hb3, hb4, requiredMysqlFlags,
      requiredPostgresFlags, handleMissingArgs, List.filter, List.contains]

/-- With the MySQL group partially (not fully) present and no required
Postgres flag, resolution fails with the incomplete-group error naming the
absent required MySQL flags in required order. -/
theorem resolver_mysql_incomplete (args : Flags)
    (hp1 : args.pgHost = none) (hp2 : args.pgUser = none)
    (hp3 : args.pgPassword = none) (hp4 : args.pgDb = none)
    (hsome : args.mysqlHost.isSome ∨ args.mysqlUser.isSome ∨
      args.mysqlPassword.isSome)
    (hnotall : ¬(args.mysqlHost.isSome ∧ args.mysqlUser.isSome ∧
      args.mysqlPassword.isSome)) :
    getCredentialsByFlags args = Except.error (ResolveError.incompleteGroup "mysql"
      (keyIf (!args.mysqlHost.isSome) "--mysql-host" ++
       keyIf (!args.mysqlUser.isSome) "--mysql-user" ++
       keyIf (!args.mysqlPassword.isSome) "--mysql-password")) := by
  cases hb1 : args.mysqlHost.isSome <;> cases hb2 : args.mysqlUser.isSome <;>
    cases hb3 : args.mysqlPassword.isSome
  · rcases hsome with h | h | h <;> simp_all
  rotate_right 1
  · exact absurd (And.intro hb1 (And.intro hb2 hb3)) hnotall
  all_goals
    simp only [getCredentialsByFlags, mysqlFlags_eq, postgresFlags_eq]
  all_goals
    simp [keyIf, hp1, hp2, hp3, hp4, hb1, hb2, hb3, requiredMysqlFlags,
      requiredPostgresFlags, handleMissingArgs, List.filter, List.contains]

/-! ### Resolver claims -/

/-- Claim C5: whenever at least one required Postgres flag and at least
one required MySQL flag are both present — regardless of any other flags —
`getCredentialsByFlags` fails with the mutual-exclusion error (so it
neither returns a descriptor nor reports an incomplete group). -/
theorem c5_claim (args : Flags)
    (hpg : args.pgHost.isSome ∨ args.pgUser.isSome ∨
      args.pgPassword.isSome ∨ args.pgDb.isSome)
    (hmy : args.mysqlHost.isSome ∨ args.mysqlUser.isSome ∨
      args.mysqlPassword.isSome) :
    getCredentialsByFlags args = Except.error ResolveError.mutualExclusion :=
  resolver_mutual args hpg hmy

/-- Claim C5 witness: a full Postgres group together with a full MySQL
group, plus extra unrelated flags, fails with the mutual-exclusion error. -/
theorem c5_witness :
    getCredentialsByFlags
      { pgHost := some "h", pgUser := some "u", pgPassword := some "p",
        pgDb := some "d", pgSsl := some true, mysqlHost := some "mh",
        mysqlUser := some "mu", mysqlPassword := some "mp",
        mongoUri := some "mongodb://host/db", sdl := some true } =
      Except.error ResolveError.mutualExclusion :=
  c5_claim
    { pgHost := some "h", pgUser := some "u", pgPassword := some "p",
      pgDb := some "d", pgSsl := some true, mysqlHost := some "mh",
      mysqlUser := some "mu", mysqlPassword := some "mp",
      mongoUri := some "mongodb://host/db", sdl := some true }
    (Or.inl rfl) (Or.inl rfl)

/-- Claim C2: the claim as stated is false. A flag bag that contains all
four required Postgres flags and no `--pg-port` but also a required MySQL
flag fails with the mutual-exclusion error instead of returning a Postgres
descriptor. -/
theorem c2_counterexample :
    getCredentialsByFlags
      { pgHost := some "h", pgUser := some "u", pgPassword := some "p",
        pgDb := some "d", mysqlHost := some "m" } =
      Except.error ResolveError.mutualExclusion := by rfl

/-- Claim C2 (amended): provided additionally that no required MySQL flag
is present, a bag with all four required Postgres flags resolves to the
Postgres descriptor whose `port` is the integer parse of `--pg-port` when
supplied and is unset (no default or other numeric value substituted) when
`--pg-port` is absent. -/
theorem c2_claim (args : Flags)
    (hh : args.pgHost.isSome) (hu : args.pgUser.isSome)
    (hp : args.pgPassword.isSome) (hd : args.pgDb.isSome)
    (hm1 : args.mysqlHost = none) (hm2 : args.mysqlUser = none)
    (hm3 : args.mysqlPassword = none) :
    getCredentialsByFlags args = Except.ok (some
      { type := DatabaseType.postgres,
        host := args.pgHost,
        user := args.pgUser,
        password := args.pgPassword,
        database := args.pgDb,
        port := parseIntJS args.pgPort,
        schema := args.pgSchema }) ∧
    (args.pgPort = none → parseIntJS args.pgPort = none) ∧
    (∀ s, args.pgPort = some s → parseIntJS args.pgPort = parseIntStr s) := by
  refine ⟨resolver_pg_full args hh hu hp hd hm1 hm2 hm3, ?_, ?_⟩
  · intro h
    rw [h]
    rfl
  · intro s hs
    rw [hs]
    rfl

/-- Claim C2 witness: the four required Postgres flags alone (no
`--pg-port`) resolve to a Postgres descriptor with `port` unset. -/
theorem c2_witness :
    getCredentialsByFlags
      { pgHost := some "h", pgUser := some "u", pgPassword := some "p",
        pgDb := some "d" } =
      Except.ok (some
        { type := DatabaseType.postgres,
          host := some "h",
          user := some "u",
          password := some "p",
          database := some "d",
          port := none,
          schema := none }) := by
  have h := (c2_claim
    { pgHost := some "h", pgUser := some "u", pgPassword := some "p",
      pgDb := some "d" } rfl rfl rfl rfl rfl rfl rfl).1
  simpa [parseIntJS] using h

/-- Claim C4: the claim as stated is false. The bag
`{--pg-host, --mysql-host}` has the Postgres required group partially (not
fully) present, yet resolution fails with the mutual-exclusion error, not
an incomplete-group error naming the missing Postgres flags. -/
theorem c4_counterexample :
    getCredentialsByFlags { pgHost := some "h", mysqlHost := some "m" } =
      Except.error ResolveError.mutualExclusion ∧
    (Except.error ResolveError.mutualExclusion :
        Except ResolveError (Option DatabaseCredentials)) ≠
      Except.error (ResolveError.incompleteGroup "pg"
        ["--pg-user", "--pg-password", "--pg-db"]) := by
  constructor
  · rfl
  · simp

/-- Claim C4 (amended): provided additionally that no required flag of the
*other* family is present, a bag in which a family's required group is
partially but not fully present fails with the incomplete-group error for
that family, naming exactly the absent required flags in required-group
order. -/
theorem c4_claim (args : Flags) :
    (args.mysqlHost = none → args.mysqlUser = none →
      args.mysqlPassword = none →
      (args.pgHost.isSome ∨ args.pgUser.isSome ∨ args.pgPassword.isSome ∨
        args.pgDb.isSome) →
      ¬(args.pgHost.isSome ∧ args.pgUser.isSome ∧ args.pgPassword.isSome ∧
        args.pgDb.isSome) →
      getCredentialsByFlags args =
        Except.error (ResolveError.incompleteGroup "pg"
          (keyIf (!args.pgHost.isSome) "--pg-host" ++
           keyIf (!args.pgUser.isSome) "--pg-user" ++
           keyIf (!args.pgPassword.isSome) "--pg-password" ++
           keyIf (!args.pgDb.isSome) "--pg-db"))) ∧
    (args.pgHost = none → args.pgUser = none → args.pgPassword = none →
      args.pgDb = none →
      (args.mysqlHost.isSome ∨ args.mysqlUser.isSome ∨
        args.mysqlPassword.isSome) →
      ¬(args.mysqlHost.isSome ∧ args.mysqlUser.isSome ∧
        args.mysqlPassword.isSome) →
      getCredentialsByFlags args =
        Except.error (ResolveError.incompleteGroup "mysql"
          (keyIf (!args.mysqlHost.isSome) "--mysql-host" ++
           keyIf (!args.mysqlUser.isSome) "--mysql-user" ++
           keyIf (!args.mysqlPassword.isSome) "--mysql-password"))) :=
  ⟨fun hm1 hm2 hm3 hs hn => resolver_pg_incomplete args hm1 hm2 hm3 hs hn,
   fun hp1 hp2 hp3 hp4 hs hn =>
     resolver_mysql_incomplete args hp1 hp2 hp3 hp4 hs hn⟩

/-- Claim C4 witness: `{--pg-host, --pg-user}` alone fails naming exactly
`["--pg-password", "--pg-db"]`, and `{--mysql-host}` alone fails naming
exactly `["--mysql-user", "--mysql-password"]`, in required-group order. -/
theorem c4_witness :
    getCredentialsByFlags { pgHost := some "h", pgUser := some "u" } =
      Except.error (ResolveError.incompleteGroup "pg"
        ["--pg-password", "--pg-db"]) ∧
    getCredentialsByFlags { mysqlHost := some "m" } =
      Except.error (ResolveError.incompleteGroup "mysql"
        ["--mysql-user", "--mysql-password"]) := by
  constructor
  · have h := (c4_claim { pgHost := some "h", pgUser := some "u" }).1
      rfl rfl rfl (Or.inl rfl) (by decide)
    simpa [keyIf] using h
  · have h := (c4_claim { mysqlHost := some "m" }).2
      rfl rfl rfl rfl (Or.inl rfl) (by decide)
    simpa [keyIf] using h

/-- Claim C9: mutual exclusion applies only between the Postgres and MySQL
flag groups.  First part: a full Postgres group together with
`--mongo-uri` (and no required MySQL flag) resolves to the Postgres
descriptor, silently ignoring the Mongo flags.  Second part: a Mongo
descriptor is only ever produced when neither the Postgres nor the MySQL
required group is fully present. -/
theorem c9_claim (args : Flags) :
    ((args.pgHost.isSome ∧ args.pgUser.isSome ∧ args.pgPassword.isSome ∧
        args.pgDb.isSome) →
      args.mysqlHost = none → args.mysqlUser = none →
      args.mysqlPassword = none → args.mongoUri.isSome →
      getCredentialsByFlags args = Except.ok (some
        { type := DatabaseType.postgres,
          host := args.pgHost,
          user := args.pgUser,
          password := args.pgPassword,
          database := args.pgDb,
          port := parseIntJS args.pgPort,
          schema := args.pgSchema })) ∧
    (∀ creds : DatabaseCredentials,
      getCredentialsByFlags args = Except.ok (some creds) →
      creds.type = DatabaseType.mongo →
      ¬(args.pgHost.isSome ∧ args.pgUser.isSome ∧ args.pgPassword.isSome ∧
        args.pgDb.isSome) ∧
      ¬(args.mysqlHost.isSome ∧ args.mysqlUser.isSome ∧
        args.mysqlPassword.isSome)) := by
  constructor
  · rintro ⟨h1, h2, h3, h4⟩ hm1 hm2 hm3 _
    exact resolver_pg_full args h1 h2 h3 h4 hm1 hm2 hm3
  · intro creds h htype
    constructor
    · rintro ⟨h1, h2, h3, h4⟩
      by_cases hma : args.mysqlHost.isSome ∨ args.mysqlUser.isSome ∨
          args.mysqlPassword.isSome
      · rw [resolver_mutual args (Or.inl h1) hma] at h
        exact absurd h (by simp)
      · push_neg at hma
        have hm1 : args.mysqlHost = none :=
          Option.not_isSome_iff_eq_none.mp hma.1
        have hm2 : args.mysqlUser = none :=
          Option.not_isSome_iff_eq_none.mp hma.2.1
        have hm3 : args.mysqlPassword = none :=
          Option.not_isSome_iff_eq_none.mp hma.2.2
        rw [resolver_pg_full args h1 h2 h3 h4 hm1 hm2 hm3] at h
        simp only [Except.ok.injEq, Option.some.injEq] at h
        rw [← h] at htype
        simp at htype
    · rintro ⟨h1, h2, h3⟩
      by_cases hpa : args.pgHost.isSome ∨ args.pgUser.isSome ∨
          args.pgPassword.isSome ∨ args.pgDb.isSome
      · rw [resolver_mutual args hpa (Or.inl h1)] at h
        exact absurd h (by simp)
      · push_neg at hpa
        have hp1 : args.pgHost = none :=
          Option.not_isSome_iff_eq_none.mp hpa.1
        have hp2 : args.pgUser = none :=
          Option.not_isSome_iff_eq_none.mp hpa.2.1
        have hp3 : args.pgPassword = none :=
          Option.not_isSome_iff_eq_none.mp hpa.2.2.1
        have hp4 : args.pgDb = none :=
          Option.not_isSome_iff_eq_none.mp hpa.2.2.2
        rw [resolver_mysql_full args h1 h2 h3 hp1 hp2 hp3 hp4] at h
        simp only [Except.ok.injEq, Option.some.injEq] at h
        rw [← h] at htype
        simp at htype

/-- Claim C9 witness: a full Postgres group plus `--mongo-uri` and
`--mongo-db` resolves to the Postgres descriptor with the Mongo flags
ignored. -/
theorem c9_witness :
    getCredentialsByFlags
      { pgHost := some "h", pgUser := some "u", pgPassword := some "p",
        pgDb := some "d", mongoUri := some "mongodb://host/mydb",
        mongoDb := some "x" } =
      Except.ok (some
        { type := DatabaseType.postgres,
          host := some "h",
          user := some "u",
          password := some "p",
          database := some "d",
          port := none,
          schema := none }) := by
  have h := (c9_claim
    { pgHost := some "h", pgUser := some "u", pgPassword := some "p",
      pgDb := some "d", mongoUri := some "mongodb://host/mydb",
      mongoDb := some "x" }).1 (by decide) rfl rfl rfl rfl
  simpa [parseIntJS] using h
